import Mathlib

/-!
Verification of the Weather-Station OTA/telemetry server
(src/server/weather_api_ota.py and src/dashboard/dashboard.py).

The Flask handlers are embedded as pure Lean functions over an explicit
server state; the database session commit is modelled by returning the new
state, and an uncaught Python exception in a handler is modelled by the
response status 500 with the state unchanged (the session is never
committed on such paths).  Timestamps are integer seconds.  Python floats
are modelled as rationals.

Python built-ins used by the source are modelled on the fragment the
handlers exercise: int(s) accepts an optional sign followed by decimal
digits, float(s) additionally accepts a single decimal point (exponents
and the special values nan/inf are not modelled; no claim touches them),
datetime parsing and werkzeug's secure_filename are abstracted as function
parameters since no claim depends on their internals, and hashlib.sha256
is abstracted as a function parameter since no claim depends on the
digest's value.
-/

/-- JSON value as delivered by request.get_json.  Array and object
payloads are never inspected by the handlers (they only ever hit a
TypeError in float() or an AttributeError on .replace), so they are
modelled as bare tags. -/
inductive JsonVal where
  | jnull
  | jbool (b : Bool)
  | jnum (q : ℚ)
  | jstr (s : String)
  | jarr
  | jobj
deriving DecidableEq

/-- Row of the sensor_data table (class SensorData, lines 34-54).
The device_id and firmware_version columns store whatever JSON value the
handler passed through. -/
structure SensorData where
  device_id : JsonVal
  temperature : ℚ
  humidity : ℚ
  firmware_version : JsonVal
  timestamp : Int
  created_at : Int
deriving DecidableEq

/-- Row of the firmware_versions table (class FirmwareVersion, lines 56-78). -/
structure FirmwareRelease where
  version : String
  filename : String
  description : String
  release_date : Int
  is_stable : Bool
  min_hardware_version : Option String
  checksum : String
deriving DecidableEq

/-- Row of the device_registry table (class DeviceRegistry, lines 80-102). -/
structure DeviceRecord where
  device_id : JsonVal
  hardware_version : Option String
  current_firmware : JsonVal
  last_seen : Int
  last_ip : String
  registered_at : Int
  auto_update : Bool
deriving DecidableEq

/-- The three persisted tables plus the firmware binary directory
(filename to byte content). -/
structure ServerState where
  sensor_data : List SensorData
  registry : List DeviceRecord
  catalog : List FirmwareRelease
  storage : List (String × List Nat)
deriving DecidableEq

/-! ### Python string built-ins on character lists

Character-list versions of str.split and int()/float() parsing, so that
closed instances reduce in the kernel. -/

/-- Python str.split(sep) for a single-character separator: splitting the
empty string yields one empty group, and separators at the ends produce
empty groups. -/
def splitOn (sep : Char) : List Char → List (List Char)
  | [] => [[]]
  | c :: cs =>
    let r := splitOn sep cs
    if c = sep then [] :: r
    else
      match r with
      | [] => [[c]]
      | g :: gs => (c :: g) :: gs

/-- Decimal digit value of a character, none if not a digit. -/
def digitVal (c : Char) : Option Nat :=
  if '0' ≤ c ∧ c ≤ '9' then some (c.toNat - '0'.toNat) else none

/-- Accumulator loop for parsing an all-digit string. -/
def parseDigitsAux : List Char → Nat → Option Nat
  | [], acc => some acc
  | c :: cs, acc =>
    match digitVal c with
    | some d => parseDigitsAux cs (10 * acc + d)
    | none => none

/-- Nonempty all-digit string to a natural number; none otherwise
(int("") raises in Python). -/
def parseNatStr : List Char → Option Nat
  | [] => none
  | cs => parseDigitsAux cs 0

/-- Python int(s) on the sign-and-digits fragment: optional single sign
followed by at least one decimal digit. -/
def pyInt (cs : List Char) : Option Int :=
  match cs with
  | '-' :: rest => (parseNatStr rest).map (fun n => -(n : Int))
  | '+' :: rest => (parseNatStr rest).map (fun n => (n : Int))
  | _ => (parseNatStr cs).map (fun n => (n : Int))

/-- Magnitude part of Python float(s): digits with at most one decimal
point, at least one digit overall. -/
def pyFloatMag (cs : List Char) : Option ℚ :=
  match splitOn '.' cs with
  | [ip] => (parseNatStr ip).map (fun n => (n : ℚ))
  | [ip, fp] =>
    if ip = [] ∧ fp = [] then none
    else
      match (if ip = [] then some 0 else parseNatStr ip),
            (if fp = [] then some 0 else parseNatStr fp) with
      | some i, some f => some ((i : ℚ) + (f : ℚ) / (10 : ℚ) ^ fp.length)
      | _, _ => none
  | _ => none

/-- Python float(s) on decimal literals: optional sign then magnitude. -/
def pyFloatStr (s : String) : Option ℚ :=
  match s.data with
  | '-' :: rest => (pyFloatMag rest).map (fun q => -q)
  | '+' :: rest => pyFloatMag rest
  | cs => pyFloatMag cs

/-- Python exception classes distinguished by the ingestion handler. -/
inductive PyErr where
  | valueError
  | typeError
deriving DecidableEq

/-- Python float(x) on a JSON value: numbers pass through, booleans
coerce to 1/0 (bool is an int subclass), strings are parsed (ValueError
on failure), and null/arrays/objects raise TypeError. -/
def pyFloat : JsonVal → Except PyErr ℚ
  | .jnum q => .ok q
  | .jbool b => .ok (if b then 1 else 0)
  | .jstr s =>
    match pyFloatStr s with
    | some q => .ok q
    | none => .error .valueError
  | .jnull => .error .typeError
  | .jarr => .error .typeError
  | .jobj => .error .typeError

/-! ### Version comparison (version_compare, lines 117-131) -/

/-- Dot-split of a version string with each component through int();
none when any component fails to parse (the ValueError of the list
comprehension at lines 119-120). -/
def versionParts (v : String) : Option (List Int) :=
  (splitOn '.' v.data).mapM pyInt

/-- The loop of version_compare (lines 122-129): walk index i while rem
components remain, reading a missing component as 0, returning on the
first difference. -/
def cmpFrom (p1 p2 : List Int) : Nat → Nat → Int
  | _, 0 => 0
  | i, rem + 1 =>
    let a := p1.getD i 0
    let b := p2.getD i 0
    if b < a then 1
    else if a < b then -1
    else cmpFrom p1 p2 (i + 1) rem

/-- Body of version_compare once both part lists are available: loop over
range(max(len1, len2)). -/
def comparePartsAux (p1 p2 : List Int) : Int :=
  cmpFrom p1 p2 0 (max p1.length p2.length)

/-- version_compare (lines 117-131): parse both strings (a parse failure
is the Python ValueError, modelled as none), then compare positionally.
Returns 1, -1 or 0. -/
def version_compare (v1 v2 : String) : Option Int :=
  match versionParts v1, versionParts v2 with
  | some p1, some p2 => some (comparePartsAux p1 p2)
  | _, _ => none

/-! ### Firmware catalog queries -/

/-- Result of ORDER BY release_date DESC ... first() on a list of rows in
table order: the earliest row among those with maximal release_date
(MySQL's stable sort keeps insertion order on ties). -/
def maxByDate : List FirmwareRelease → Option FirmwareRelease
  | [] => none
  | r :: rs =>
    match maxByDate rs with
    | none => some r
    | some m => if r.release_date < m.release_date then some m else some r

/-- FirmwareVersion.query.filter_by(is_stable=True).order_by(release_date
desc).first() at line 241. -/
def latestStable (catalog : List FirmwareRelease) : Option FirmwareRelease :=
  maxByDate (catalog.filter (fun r => r.is_stable))

/-- JSON body of the /api/v1/firmware/check response together with the
HTTP status; keys absent from a given response are none. -/
structure CheckResponse where
  status : Nat
  update_available : Option Bool
  current_version : Option String
  latest_version : Option String
  new_version : Option String
  description : Option String
  release_date : Option Int
  firmware_url : Option String
  checksum : Option String
deriving DecidableEq

/-- Check response carrying only an HTTP status. -/
def emptyCheck (s : Nat) : CheckResponse :=
  ⟨s, none, none, none, none, none, none, none, none⟩

/-- check_firmware_update (lines 228-269).  Missing or empty query
parameters give 400; an empty catalog gives update_available false; a
malformed version string makes version_compare raise an uncaught
ValueError, which Flask surfaces as a 500.  The handler never reads the
device registry. -/
def check_firmware_update (host_url : String) (st : ServerState)
    (device_id current_version : Option String) : CheckResponse :=
  if device_id.getD "" = "" ∨ current_version.getD "" = "" then emptyCheck 400
  else
    let cv := current_version.getD ""
    match latestStable st.catalog with
    | none => { emptyCheck 200 with update_available := some false }
    | some latest =>
      match version_compare latest.version cv with
      | none => emptyCheck 500
      | some c =>
        let ua := decide (0 < c)
        { status := 200
          update_available := some ua
          current_version := some cv
          latest_version := some latest.version
          new_version := if ua then some latest.version else none
          description := if ua then some latest.description else none
          release_date := if ua then some latest.release_date else none
          firmware_url :=
            if ua then some (host_url ++ "api/v1/firmware/download/" ++ latest.version)
            else none
          checksum := if ua then some latest.checksum else none }

/-! ### Telemetry ingestion (receive_sensor_data, lines 134-225) -/

/-- HTTP status and message of an ingestion response. -/
structure IngestResponse where
  status : Nat
  message : String
deriving DecidableEq

/-- Update of the first registry row matching the device id (lines
196-199): only last_seen, last_ip and current_firmware are assigned. -/
def touchExisting (did : JsonVal) (now : Int) (ip : String) (fw : JsonVal) :
    List DeviceRecord → List DeviceRecord
  | [] => []
  | d :: ds =>
    if d.device_id = did then
      { d with last_seen := now, last_ip := ip, current_firmware := fw } :: ds
    else
      d :: touchExisting did now ip fw ds

/-- Success tail of the ingestion handler (lines 180-218): read the
firmware_version field with default "unknown", build the SensorData row,
upsert the registry row (a fresh row gets registered_at now and
auto_update true from the column defaults, lines 89-90), and commit. -/
def ingestCommit (did : JsonVal) (temperature humidity : ℚ) (ts now : Int)
    (ip : String) (data : List (String × JsonVal)) (st : ServerState) :
    IngestResponse × ServerState :=
  let fw := (data.lookup "firmware_version").getD (.jstr "unknown")
  let reading : SensorData := ⟨did, temperature, humidity, fw, ts, now⟩
  let registry' :=
    if st.registry.any (fun d => decide (d.device_id = did)) then
      touchExisting did now ip fw st.registry
    else
      st.registry ++ [⟨did, none, fw, now, ip, now, true⟩]
  (⟨201, "Data received successfully"⟩,
   { st with sensor_data := reading :: st.sensor_data, registry := registry' })

/-- receive_sensor_data (lines 134-225).  parseTs models
datetime.fromisoformat after the replace of Z by an offset; a TypeError
or AttributeError escapes the inner except ValueError handlers and is
caught by the outer except as a 500, leaving the session uncommitted. -/
def receive_sensor_data (parseTs : String → Option Int) (now : Int)
    (remote_addr : String) (data : List (String × JsonVal)) (st : ServerState) :
    IngestResponse × ServerState :=
  match data.lookup "device_id" with
  | none => (⟨400, "Missing required field: device_id"⟩, st)
  | some did =>
    match data.lookup "temperature", data.lookup "humidity" with
    | none, _ => (⟨400, "Missing required field: temperature"⟩, st)
    | some _, none => (⟨400, "Missing required field: humidity"⟩, st)
    | some tv, some hv =>
      match pyFloat tv with
      | .error .valueError => (⟨400, "Invalid data type for temperature or humidity"⟩, st)
      | .error .typeError => (⟨500, "Internal server error"⟩, st)
      | .ok temperature =>
        match pyFloat hv with
        | .error .valueError => (⟨400, "Invalid data type for temperature or humidity"⟩, st)
        | .error .typeError => (⟨500, "Internal server error"⟩, st)
        | .ok humidity =>
          if ¬(-50 ≤ temperature ∧ temperature ≤ 100) then
            (⟨400, "Temperature out of reasonable range"⟩, st)
          else if ¬(0 ≤ humidity ∧ humidity ≤ 100) then
            (⟨400, "Humidity out of reasonable range"⟩, st)
          else
            match data.lookup "timestamp" with
            | none =>
              ingestCommit did temperature humidity now now remote_addr data st
            | some (.jstr s) =>
              ingestCommit did temperature humidity
                ((parseTs (s.replace "Z" "+00:00")).getD now) now remote_addr data st
            | some _ => (⟨500, "Internal server error"⟩, st)

/-! ### Firmware upload (upload_firmware, lines 271-331) -/

/-- HTTP status and message of an upload response. -/
structure UploadResponse where
  status : Nat
  message : String
deriving DecidableEq

/-- Write of a file into the upload folder: overwrite the entry with this
name if present, otherwise add it. -/
def storeSet : List (String × List Nat) → String → List Nat → List (String × List Nat)
  | [], k, v => [(k, v)]
  | (k0, v0) :: rest, k, v =>
    if k0 = k then (k0, v) :: rest
    else (k0, v0) :: storeSet rest k v

/-- upload_firmware (lines 271-331).  sf models werkzeug secure_filename
and hashFn models the SHA-256 hex digest of calculate_file_hash; no claim
depends on their internals.  The multipart file part is (filename,
content) when present. -/
def upload_firmware (sf : String → String) (hashFn : List Nat → String)
    (now : Int) (file : Option (String × List Nat)) (version : Option String)
    (description : String) (is_stable_raw : Option String) (st : ServerState) :
    UploadResponse × ServerState :=
  match file with
  | none => (⟨400, "No file provided"⟩, st)
  | some (fname0, content) =>
    if fname0 = "" then (⟨400, "No file selected"⟩, st)
    else
      let is_stable : Bool := decide ((is_stable_raw.getD "true").toLower = "true")
      match version with
      | none => (⟨400, "Version is required"⟩, st)
      | some v =>
        if v = "" then (⟨400, "Version is required"⟩, st)
        else if st.catalog.any (fun r => decide (r.version = v)) then
          (⟨400, "Version already exists"⟩, st)
        else
          let filename := sf ("firmware_v" ++ v ++ ".bin")
          let storage' := storeSet st.storage filename content
          let checksum := hashFn content
          let rel : FirmwareRelease :=
            ⟨v, filename, description, now, is_stable, none, checksum⟩
          (⟨201, "Firmware uploaded successfully"⟩,
           { st with storage := storage', catalog := st.catalog ++ [rel] })

/-- One upload request as submitted by an operator. -/
structure UploadReq where
  now : Int
  file : Option (String × List Nat)
  version : Option String
  description : String
  is_stable_raw : Option String
deriving DecidableEq

/-- State reached after a sequence of upload requests. -/
def uploadMany (sf : String → String) (hashFn : List Nat → String)
    (st : ServerState) (reqs : List UploadReq) : ServerState :=
  reqs.foldl
    (fun s q =>
      (upload_firmware sf hashFn q.now q.file q.version q.description q.is_stable_raw s).2)
    st

/-! ### Sensor statistics (get_sensor_stats, lines 487-555) -/

/-- Aggregates for one measurement column. -/
structure StatGroup where
  min : ℚ
  max : ℚ
  avg : ℚ
deriving DecidableEq

/-- Body of the stats JSON object. -/
structure StatsPayload where
  temperature : StatGroup
  humidity : StatGroup
  data_points : Nat
deriving DecidableEq

/-- HTTP status and stats object (none on the 400 path). -/
structure StatsResponse where
  status : Nat
  stats : Option StatsPayload
deriving DecidableEq

/-- time_ranges lookup (lines 501-508): dict .get with the 24h default
for any unknown period string. -/
def periodSeconds (period : String) : Int :=
  if period = "1h" then 3600
  else if period = "24h" then 86400
  else if period = "7d" then 604800
  else if period = "30d" then 2592000
  else 86400

/-- Python min over a nonempty list (junk 0 on the empty list, which the
handler never passes). -/
def listMin : List ℚ → ℚ
  | [] => 0
  | x :: xs => xs.foldl min x

/-- Python max over a nonempty list (junk 0 on the empty list). -/
def listMax : List ℚ → ℚ
  | [] => 0
  | x :: xs => xs.foldl max x

/-- Python sum of a list of rationals. -/
def listSum (l : List ℚ) : ℚ := l.foldl (· + ·) 0

/-- The SQL selection of get_sensor_stats (lines 512-515): readings of
the device whose timestamp is at least start_time.  There is no upper
bound, so readings with a device-reported timestamp in the future are
included. -/
def statsWindow (st : ServerState) (d : String) (start_time : Int) : List SensorData :=
  st.sensor_data.filter
    (fun r => decide (r.device_id = .jstr d) && decide (start_time ≤ r.timestamp))

/-- get_sensor_stats (lines 487-555).  Missing or empty device_id is a
400; an empty selection yields zeroed stats with zero data points; a
nonempty selection yields min, max and sum-over-length averages of the
selected temperatures and humidities. -/
def get_sensor_stats (st : ServerState) (now : Int)
    (device_id period : Option String) : StatsResponse :=
  if device_id.getD "" = "" then ⟨400, none⟩
  else if (statsWindow st (device_id.getD "")
      (now - periodSeconds (period.getD "24h"))).isEmpty then
    ⟨200, some ⟨⟨0, 0, 0⟩, ⟨0, 0, 0⟩, 0⟩⟩
  else
    ⟨200, some
      ⟨⟨listMin ((statsWindow st (device_id.getD "")
            (now - periodSeconds (period.getD "24h"))).map (fun r => r.temperature)),
        listMax ((statsWindow st (device_id.getD "")
            (now - periodSeconds (period.getD "24h"))).map (fun r => r.temperature)),
        listSum ((statsWindow st (device_id.getD "")
            (now - periodSeconds (period.getD "24h"))).map (fun r => r.temperature)) /
          ((statsWindow st (device_id.getD "")
            (now - periodSeconds (period.getD "24h"))).map (fun r => r.temperature)).length⟩,
       ⟨listMin ((statsWindow st (device_id.getD "")
            (now - periodSeconds (period.getD "24h"))).map (fun r => r.humidity)),
        listMax ((statsWindow st (device_id.getD "")
            (now - periodSeconds (period.getD "24h"))).map (fun r => r.humidity)),
        listSum ((statsWindow st (device_id.getD "")
            (now - periodSeconds (period.getD "24h"))).map (fun r => r.humidity)) /
          ((statsWindow st (device_id.getD "")
            (now - periodSeconds (period.getD "24h"))).map (fun r => r.humidity)).length⟩,
       (statsWindow st (device_id.getD "")
          (now - periodSeconds (period.getD "24h"))).length⟩⟩

/-! ### Dashboard online/offline derivation (get_device_status,
src/dashboard/dashboard.py lines 166-206) -/

/-- get_device_status.  parseTs models datetime.fromisoformat composed
with .timestamp(); a missing or empty last_update string and any parse
exception give offline.  The decision compares the absolute difference of
UNIX timestamps against the 180 second timeout. -/
def get_device_status (parseTs : String → Option Int) (now : Int)
    (last_update : Option String) : Bool :=
  match last_update with
  | none => false
  | some s =>
    if s = "" then false
    else
      let s2 := if s.contains 'Z' then s.replace "Z" "+00:00" else s
      match parseTs s2 with
      | none => false
      | some t => if 180 < |now - t| then false else true

/-! ### Specification-side definitions for the version order

These two definitions follow the wording of the spec (positional
lexicographic comparison over the integer sequences, reading a missing
trailing component as zero), to be compared with the comparator
translated from the source. -/

/-- Component i of a version part list, with the spec's zero padding for
missing trailing components. -/
def padComponent (l : List Int) (i : Nat) : Int := l.getD i 0

/-- Spec wording: the two padded sequences agree at every position. -/
def SpecLexEqual (a b : List Int) : Prop :=
  ∀ i, padComponent a i = padComponent b i

/-- Spec wording: a exceeds b at the first position where the padded
sequences differ. -/
def SpecLexGreater (a b : List Int) : Prop :=
  ∃ i, (∀ j < i, padComponent a j = padComponent b j) ∧
    padComponent b i < padComponent a i

/-! ### Lemmas about the comparison loop -/

theorem cmpFrom_values (p1 p2 : List Int) (i rem : Nat) :
    cmpFrom p1 p2 i rem = -1 ∨ cmpFrom p1 p2 i rem = 0 ∨ cmpFrom p1 p2 i rem = 1 := by
  induction rem generalizing i with
  | zero => simp [cmpFrom]
  | succ n ih =>
    simp only [cmpFrom]
    split
    · simp
    · split
      · simp
      · exact ih (i + 1)

theorem cmpFrom_neg (p1 p2 : List Int) (i rem : Nat) :
    cmpFrom p2 p1 i rem = -cmpFrom p1 p2 i rem := by
  induction rem generalizing i with
  | zero => simp [cmpFrom]
  | succ n ih =>
    simp only [cmpFrom]
    rcases lt_trichotomy (p1.getD i 0) (p2.getD i 0) with h | h | h
    · rw [if_pos h, if_neg (by omega : ¬ p2.getD i 0 < p1.getD i 0), if_pos h]
      decide
    · rw [if_neg (by omega : ¬ p1.getD i 0 < p2.getD i 0),
        if_neg (by omega : ¬ p2.getD i 0 < p1.getD i 0),
        if_neg (by omega : ¬ p2.getD i 0 < p1.getD i 0),
        if_neg (by omega : ¬ p1.getD i 0 < p2.getD i 0)]
      exact ih (i + 1)
    · rw [if_neg (by omega : ¬ p1.getD i 0 < p2.getD i 0), if_pos h, if_pos h]

theorem cmpFrom_eq_zero_iff (p1 p2 : List Int) (i rem : Nat) :
    cmpFrom p1 p2 i rem = 0 ↔
      ∀ j < rem, p1.getD (i + j) 0 = p2.getD (i + j) 0 := by
  induction rem generalizing i with
  | zero => simp [cmpFrom]
  | succ n ih =>
    simp only [cmpFrom]
    rcases lt_trichotomy (p1.getD i 0) (p2.getD i 0) with h | h | h
    · rw [if_neg (by omega : ¬ p2.getD i 0 < p1.getD i 0), if_pos h]
      constructor
      · intro h'
        exact absurd h' (by decide)
      · intro hall
        have h0 := hall 0 (by omega)
        rw [Nat.add_zero] at h0
        omega
    · rw [if_neg (by omega : ¬ p2.getD i 0 < p1.getD i 0),
        if_neg (by omega : ¬ p1.getD i 0 < p2.getD i 0), ih (i + 1)]
      constructor
      · intro hall j hj
        cases j with
        | zero => rw [Nat.add_zero]; exact h
        | succ k =>
          have hk := hall k (by omega)
          have e : i + (k + 1) = i + 1 + k := by omega
          rw [e]
          exact hk
      · intro hall j hj
        have hk := hall (j + 1) (by omega)
        have e : i + (j + 1) = i + 1 + j := by omega
        rw [e] at hk
        exact hk
    · rw [if_pos h]
      constructor
      · intro h'
        exact absurd h' (by decide)
      · intro hall
        have h0 := hall 0 (by omega)
        rw [Nat.add_zero] at h0
        omega

theorem cmpFrom_eq_one_iff (p1 p2 : List Int) (i rem : Nat) :
    cmpFrom p1 p2 i rem = 1 ↔
      ∃ j, j < rem ∧ (∀ k < j, p1.getD (i + k) 0 = p2.getD (i + k) 0) ∧
        p2.getD (i + j) 0 < p1.getD (i + j) 0 := by
  induction rem generalizing i with
  | zero => simp [cmpFrom]
  | succ n ih =>
    simp only [cmpFrom]
    rcases lt_trichotomy (p1.getD i 0) (p2.getD i 0) with h | h | h
    · rw [if_neg (by omega : ¬ p2.getD i 0 < p1.getD i 0), if_pos h]
      constructor
      · intro h'
        exact absurd h' (by decide)
      · rintro ⟨j, hj, hpre, hgt⟩
        cases j with
        | zero => rw [Nat.add_zero] at hgt; omega
        | succ k =>
          have h0 := hpre 0 (by omega)
          rw [Nat.add_zero] at h0
          omega
    · rw [if_neg (by omega : ¬ p2.getD i 0 < p1.getD i 0),
        if_neg (by omega : ¬ p1.getD i 0 < p2.getD i 0), ih (i + 1)]
      constructor
      · rintro ⟨j, hj, hpre, hgt⟩
        refine ⟨j + 1, by omega, ?_, ?_⟩
        · intro k hk
          cases k with
          | zero => rw [Nat.add_zero]; exact h
          | succ m =>
            have hm := hpre m (by omega)
            have e : i + (m + 1) = i + 1 + m := by omega
            rw [e]
            exact hm
        · have e : i + (j + 1) = i + 1 + j := by omega
          rw [e]
          exact hgt
      · rintro ⟨j, hj, hpre, hgt⟩
        cases j with
        | zero => rw [Nat.add_zero] at hgt; omega
        | succ m =>
          refine ⟨m, by omega, ?_, ?_⟩
          · intro k hk
            have hk' := hpre (k + 1) (by omega)
            have e : i + (k + 1) = i + 1 + k := by omega
            rw [e] at hk'
            exact hk'
          · have e : i + (m + 1) = i + 1 + m := by omega
            rw [e] at hgt
            exact hgt
    · rw [if_pos h]
      constructor
      · intro _
        refine ⟨0, by omega, ?_, by rw [Nat.add_zero]; exact h⟩
        intro k hk
        omega
      · intro _
        rfl

theorem comparePartsAux_eq_zero_iff (p1 p2 : List Int) :
    comparePartsAux p1 p2 = 0 ↔ SpecLexEqual p1 p2 := by
  unfold comparePartsAux SpecLexEqual padComponent
  rw [cmpFrom_eq_zero_iff]
  constructor
  · intro hall j
    by_cases hj : j < max p1.length p2.length
    · have h := hall j hj
      rw [Nat.zero_add] at h
      exact h
    · have e1 : p1.getD j 0 = 0 := List.getD_eq_default _ _ (by omega)
      have e2 : p2.getD j 0 = 0 := List.getD_eq_default _ _ (by omega)
      rw [e1, e2]
  · intro hall j hj
    rw [Nat.zero_add]
    exact hall j

theorem comparePartsAux_eq_one_iff (p1 p2 : List Int) :
    comparePartsAux p1 p2 = 1 ↔ SpecLexGreater p1 p2 := by
  unfold comparePartsAux SpecLexGreater padComponent
  rw [cmpFrom_eq_one_iff]
  constructor
  · rintro ⟨j, hj, hpre, hgt⟩
    rw [Nat.zero_add] at hgt
    refine ⟨j, ?_, hgt⟩
    intro k hk
    have h := hpre k hk
    rw [Nat.zero_add] at h
    exact h
  · rintro ⟨j, hpre, hgt⟩
    refine ⟨j, ?_, ?_, ?_⟩
    · by_contra hj
      push_neg at hj
      have e1 : p1.getD j 0 = 0 := List.getD_eq_default _ _ (by omega)
      have e2 : p2.getD j 0 = 0 := List.getD_eq_default _ _ (by omega)
      rw [e1, e2] at hgt
      exact lt_irrefl _ hgt
    · intro k hk
      rw [Nat.zero_add]
      exact hpre k hk
    · rw [Nat.zero_add]
      exact hgt

theorem comparePartsAux_neg (p1 p2 : List Int) :
    comparePartsAux p2 p1 = -comparePartsAux p1 p2 := by
  unfold comparePartsAux
  rw [Nat.max_comm p2.length p1.length]
  exact cmpFrom_neg p1 p2 0 (max p1.length p2.length)


theorem specLexGreater_trans {a b c : List Int} :
    SpecLexGreater a b → SpecLexGreater b c → SpecLexGreater a c := by
  rintro ⟨i, hpi, hi⟩ ⟨k, hpk, hk⟩
  rcases lt_trichotomy i k with h | h | h
  · refine ⟨i, fun j hj => (hpi j hj).trans (hpk j (hj.trans h)), ?_⟩
    rw [← hpk i h]
    exact hi
  · subst h
    exact ⟨i, fun j hj => (hpi j hj).trans (hpk j hj), hk.trans hi⟩
  · refine ⟨k, fun j hj => (hpi j (hj.trans h)).trans (hpk j hj), ?_⟩
    rw [hpi k h]
    exact hk

theorem version_compare_some {a b : String} {pa pb : List Int}
    (ha : versionParts a = some pa) (hb : versionParts b = some pb) :
    version_compare a b = some (comparePartsAux pa pb) := by
  unfold version_compare
  rw [ha, hb]

theorem version_compare_values {a b : String} {c : Int}
    (h : version_compare a b = some c) : c = -1 ∨ c = 0 ∨ c = 1 := by
  unfold version_compare at h
  cases ha : versionParts a with
  | none => rw [ha] at h; exact absurd h (by simp)
  | some pa =>
    cases hb : versionParts b with
    | none => rw [ha, hb] at h; exact absurd h (by simp)
    | some pb =>
      rw [ha, hb] at h
      simp at h
      subst h
      exact cmpFrom_values pa pb 0 (max pa.length pb.length)

theorem version_compare_none_right {a b : String}
    (hb : versionParts b = none) : version_compare a b = none := by
  unfold version_compare
  cases versionParts a <;> rw [hb]

/-- C2: for version strings whose components parse as integers (in
particular all non-negative dotted-numeric versions), version_compare is
exactly the positional lexicographic comparison of the component
sequences with zero padding, and is a total order: reflexively EQUAL,
antisymmetric (GREATER one way iff LESS the other), transitive in
GREATER, with the spec's concrete instances compare("1.2", "1.2.0") =
EQUAL and compare("1.10.0", "1.9.0") = GREATER (1 is GREATER, -1 is
LESS, 0 is EQUAL). -/
theorem C2_version_compare_total_order :
    (∀ a pa, versionParts a = some pa → version_compare a a = some 0) ∧
    (∀ a b pa pb, versionParts a = some pa → versionParts b = some pb →
      (version_compare a b = some 1 ↔ version_compare b a = some (-1))) ∧
    (∀ a b c pa pb pc, versionParts a = some pa → versionParts b = some pb →
      versionParts c = some pc → version_compare a b = some 1 →
      version_compare b c = some 1 → version_compare a c = some 1) ∧
    (∀ a b pa pb, versionParts a = some pa → versionParts b = some pb →
      ((version_compare a b = some 0 ↔ SpecLexEqual pa pb) ∧
       (version_compare a b = some 1 ↔ SpecLexGreater pa pb) ∧
       (version_compare a b = some (-1) ↔ SpecLexGreater pb pa))) ∧
    version_compare "1.2" "1.2.0" = some 0 ∧
    version_compare "1.10.0" "1.9.0" = some 1 := by
  have key : ∀ (a b : String) (pa pb : List Int), versionParts a = some pa →
      versionParts b = some pb →
      ((version_compare a b = some 0 ↔ SpecLexEqual pa pb) ∧
       (version_compare a b = some 1 ↔ SpecLexGreater pa pb) ∧
       (version_compare a b = some (-1) ↔ SpecLexGreater pb pa)) := by
    intro a b pa pb ha hb
    rw [version_compare_some ha hb]
    refine ⟨?_, ?_, ?_⟩
    · rw [Option.some_inj]
      exact comparePartsAux_eq_zero_iff pa pb
    · rw [Option.some_inj]
      exact comparePartsAux_eq_one_iff pa pb
    · rw [Option.some_inj]
      have hneg := comparePartsAux_neg pb pa
      constructor
      · intro h
        rw [← comparePartsAux_eq_one_iff]
        omega
      · intro h
        rw [← comparePartsAux_eq_one_iff] at h
        omega
  refine ⟨?_, ?_, ?_, key, by decide, by decide⟩
  · intro a pa ha
    rw [version_compare_some ha ha, Option.some_inj]
    rw [comparePartsAux_eq_zero_iff]
    intro i
    rfl
  · intro a b pa pb ha hb
    rw [(key a b pa pb ha hb).2.1, (key b a pb pa hb ha).2.2]
  · intro a b c pa pb pc ha hb hc hab hbc
    rw [(key a b pa pb ha hb).2.1] at hab
    rw [(key b c pb pc hb hc).2.1] at hbc
    rw [(key a c pa pc ha hc).2.1]
    exact specLexGreater_trans hab hbc

/-- Witness for C2: the transitivity component applied at the concrete
versions 3.0, 2.0, 1.0. -/
theorem C2_witness : version_compare "3.0" "1.0" = some 1 :=
  C2_version_compare_total_order.2.2.1 "3.0" "2.0" "1.0" [3, 0] [2, 0] [1, 0]
    (by decide) (by decide) (by decide) (by decide) (by decide)

/-! ### Lemmas about the latest-stable query -/

theorem maxByDate_cons_none {r : FirmwareRelease} {rs : List FirmwareRelease}
    (h : maxByDate rs = none) : maxByDate (r :: rs) = some r := by
  unfold maxByDate
  rw [h]

theorem maxByDate_cons_some {r m : FirmwareRelease} {rs : List FirmwareRelease}
    (h : maxByDate rs = some m) :
    maxByDate (r :: rs) =
      if r.release_date < m.release_date then some m else some r := by
  unfold maxByDate
  rw [h]

theorem maxByDate_ne_none (r : FirmwareRelease) (rs : List FirmwareRelease) :
    maxByDate (r :: rs) ≠ none := by
  cases hm : maxByDate rs with
  | none => rw [maxByDate_cons_none hm]; simp
  | some m => rw [maxByDate_cons_some hm]; split <;> simp

theorem maxByDate_eq_none_iff (l : List FirmwareRelease) :
    maxByDate l = none ↔ l = [] := by
  cases l with
  | nil => simp [maxByDate]
  | cons r rs =>
    constructor
    · intro h
      exact absurd h (maxByDate_ne_none r rs)
    · intro h
      exact absurd h (by simp)

theorem maxByDate_mem {l : List FirmwareRelease} {m : FirmwareRelease}
    (h : maxByDate l = some m) : m ∈ l := by
  induction l with
  | nil => simp [maxByDate] at h
  | cons r rs ih =>
    cases hm : maxByDate rs with
    | none =>
      rw [maxByDate_cons_none hm] at h
      simp at h
      simp [h]
    | some m0 =>
      rw [maxByDate_cons_some hm] at h
      by_cases hlt : r.release_date < m0.release_date
      · rw [if_pos hlt] at h
        simp at h
        subst h
        exact List.mem_cons_of_mem _ (ih hm)
      · rw [if_neg hlt] at h
        simp at h
        simp [h]

theorem maxByDate_is_max {l : List FirmwareRelease} :
    ∀ {m : FirmwareRelease}, maxByDate l = some m →
      ∀ x ∈ l, x.release_date ≤ m.release_date := by
  induction l with
  | nil => intro m h; simp [maxByDate] at h
  | cons r rs ih =>
    intro m h
    cases hm : maxByDate rs with
    | none =>
      rw [maxByDate_cons_none hm] at h
      simp at h
      subst h
      have hrs : rs = [] := (maxByDate_eq_none_iff rs).mp hm
      subst hrs
      intro x hx
      simp at hx
      subst hx
      exact le_refl _
    | some m0 =>
      rw [maxByDate_cons_some hm] at h
      by_cases hlt : r.release_date < m0.release_date
      · rw [if_pos hlt] at h
        simp at h
        subst h
        intro x hx
        rcases List.mem_cons.mp hx with hx | hx
        · subst hx
          exact le_of_lt hlt
        · exact ih hm x hx
      · rw [if_neg hlt] at h
        simp at h
        subst h
        intro x hx
        rcases List.mem_cons.mp hx with hx | hx
        · subst hx
          exact le_refl _
        · exact (ih hm x hx).trans (not_lt.mp hlt)


theorem latestStable_eq_none_iff (catalog : List FirmwareRelease) :
    latestStable catalog = none ↔ ∀ r ∈ catalog, r.is_stable = false := by
  unfold latestStable
  rw [maxByDate_eq_none_iff, List.filter_eq_nil_iff]
  constructor
  · intro h r hr
    have := h r hr
    simpa using this
  · intro h r hr
    simp [h r hr]

theorem latestStable_mem {catalog : List FirmwareRelease} {L : FirmwareRelease}
    (h : latestStable catalog = some L) : L ∈ catalog ∧ L.is_stable = true := by
  unfold latestStable at h
  have hm := maxByDate_mem h
  have := List.mem_filter.mp hm
  exact ⟨this.1, this.2⟩

theorem latestStable_is_max {catalog : List FirmwareRelease} {L : FirmwareRelease}
    (h : latestStable catalog = some L) :
    ∀ r ∈ catalog, r.is_stable = true → r.release_date ≤ L.release_date := by
  intro r hr hs
  exact maxByDate_is_max h r (List.mem_filter.mpr ⟨hr, hs⟩)

/-- C1: for every update check with both parameters supplied, if no
stable release exists the response has update_available false; otherwise,
with L the stable release of maximal release_date, update_available is
true exactly when the comparator reports L.version GREATER than
current_version, and in that case the response carries L's version,
description, release date, checksum, and the download URL derived from
L.version. -/
theorem C1_update_check (host : String) (st : ServerState) (d cv : String)
    (hd : d ≠ "") (hcv : cv ≠ "") :
    ((∀ r ∈ st.catalog, r.is_stable = false) →
      (check_firmware_update host st (some d) (some cv)).status = 200 ∧
      (check_firmware_update host st (some d) (some cv)).update_available = some false) ∧
    (∀ L, latestStable st.catalog = some L →
      L ∈ st.catalog ∧ L.is_stable = true ∧
      (∀ r ∈ st.catalog, r.is_stable = true → r.release_date ≤ L.release_date) ∧
      (∀ c, version_compare L.version cv = some c →
        (check_firmware_update host st (some d) (some cv)).status = 200 ∧
        ((check_firmware_update host st (some d) (some cv)).update_available = some true ↔
          c = 1) ∧
        (c = 1 →
          (check_firmware_update host st (some d) (some cv)).new_version = some L.version ∧
          (check_firmware_update host st (some d) (some cv)).description =
            some L.description ∧
          (check_firmware_update host st (some d) (some cv)).release_date =
            some L.release_date ∧
          (check_firmware_update host st (some d) (some cv)).checksum = some L.checksum ∧
          (check_firmware_update host st (some d) (some cv)).firmware_url =
            some (host ++ "api/v1/firmware/download/" ++ L.version)))) := by
  have hguard : ¬((some d).getD "" = "" ∨ (some cv).getD "" = "") := by
    simp [hd, hcv]
  constructor
  · intro hns
    have hnone : latestStable st.catalog = none := (latestStable_eq_none_iff _).mpr hns
    unfold check_firmware_update
    rw [if_neg hguard, hnone]
    exact ⟨rfl, rfl⟩
  · intro L hL
    refine ⟨(latestStable_mem hL).1, (latestStable_mem hL).2, latestStable_is_max hL, ?_⟩
    intro c hc
    unfold check_firmware_update
    rw [if_neg hguard, hL]
    simp only [Option.getD_some] at hc ⊢
    rw [hc]
    refine ⟨rfl, ?_, ?_⟩
    · have hv := version_compare_values hc
      constructor
      · intro h
        simp at h
        omega
      · intro h
        subst h
        rfl
    · intro h
      subst h
      exact ⟨rfl, rfl, rfl, rfl, rfl⟩

/-- Witness for C1: a catalog holding the single stable release 2.0.0 and
a device at 1.5.0 is told an update is available. -/
theorem C1_witness :
    (check_firmware_update "http://h/"
      ⟨[], [], [⟨"2.0.0", "firmware_v2.0.0.bin", "fix", 100, true, none, "c0ffee"⟩], []⟩
      (some "ESP32_001") (some "1.5.0")).update_available = some true := by
  have h := C1_update_check "http://h/"
    ⟨[], [], [⟨"2.0.0", "firmware_v2.0.0.bin", "fix", 100, true, none, "c0ffee"⟩], []⟩
    "ESP32_001" "1.5.0" (by decide) (by decide)
  have h2 := (h.2 ⟨"2.0.0", "firmware_v2.0.0.bin", "fix", 100, true, none, "c0ffee"⟩
    (by decide)).2.2.2 1 (by decide)
  exact h2.2.1.mpr rfl

/-- C9: the update-check response is a function of the catalog and the
request parameters only; two runs over arbitrary registry contents (in
particular one where the device's record has auto_update false or is
absent and one where it is true) give identical responses. -/
theorem C9_check_independent_of_registry (host : String) (sd : List SensorData)
    (reg1 reg2 : List DeviceRecord) (catalog : List FirmwareRelease)
    (stor : List (String × List Nat)) (device_id current_version : Option String) :
    check_firmware_update host ⟨sd, reg1, catalog, stor⟩ device_id current_version =
      check_firmware_update host ⟨sd, reg2, catalog, stor⟩ device_id current_version := rfl

/-- C10 counterexample: with a stable release 2.0.0 present, an update
check for the malformed current_version abc yields HTTP 500, not the 400
the claim requires. -/
theorem C10_counterexample :
    (check_firmware_update "http://h/"
      ⟨[], [], [⟨"2.0.0", "firmware_v2.0.0.bin", "", 100, true, none, "c0"⟩], []⟩
      (some "ESP32_001") (some "abc")).status = 500 ∧
    ¬(check_firmware_update "http://h/"
      ⟨[], [], [⟨"2.0.0", "firmware_v2.0.0.bin", "", 100, true, none, "c0"⟩], []⟩
      (some "ESP32_001") (some "abc")).status = 400 := by decide

/-- C10 amended: a current_version with a non-numeric dot-separated
component, with at least one stable release present, makes the comparator
raise (it does not silently coerce), and the uncaught error is surfaced
by Flask as HTTP 500 — not as the 400 caller error the spec prescribes. -/
theorem C10_amended (host : String) (st : ServerState) (d cv : String)
    (L : FirmwareRelease) (hd : d ≠ "") (hcv : cv ≠ "")
    (hL : latestStable st.catalog = some L) (hmal : versionParts cv = none) :
    (check_firmware_update host st (some d) (some cv)).status = 500 ∧
    ¬(check_firmware_update host st (some d) (some cv)).status = 400 := by
  have hguard : ¬((some d).getD "" = "" ∨ (some cv).getD "" = "") := by
    simp [hd, hcv]
  have hvc : version_compare L.version cv = none := version_compare_none_right hmal
  have h5 : (check_firmware_update host st (some d) (some cv)).status = 500 := by
    unfold check_firmware_update
    rw [if_neg hguard, hL]
    simp only [Option.getD_some]
    rw [hvc]
    rfl
  refine ⟨h5, ?_⟩
  rw [h5]
  decide

/-- Witness for C10 (amended): the malformed current_version 1.x.0
against a catalog with a stable release gives the 500. -/
theorem C10_witness :
    (check_firmware_update "http://h/"
      ⟨[], [], [⟨"2.0.0", "firmware_v2.0.0.bin", "", 100, true, none, "c0"⟩], []⟩
      (some "dev") (some "1.x.0")).status = 500 :=
  (C10_amended "http://h/"
    ⟨[], [], [⟨"2.0.0", "firmware_v2.0.0.bin", "", 100, true, none, "c0"⟩], []⟩
    "dev" "1.x.0" ⟨"2.0.0", "firmware_v2.0.0.bin", "", 100, true, none, "c0"⟩
    (by decide) (by decide) (by decide) (by decide)).1

/-! ### Lemmas about the ingestion handler -/

theorem touchExisting_append (did : JsonVal) (now : Int) (ip : String) (fw : JsonVal)
    (pre : List DeviceRecord) (rec : DeviceRecord) (post : List DeviceRecord)
    (hpre : ∀ r ∈ pre, r.device_id ≠ did) (hrec : rec.device_id = did) :
    touchExisting did now ip fw (pre ++ rec :: post) =
      pre ++ { rec with last_seen := now, last_ip := ip, current_firmware := fw } :: post := by
  induction pre with
  | nil =>
    simp only [List.nil_append]
    unfold touchExisting
    rw [if_pos hrec]
  | cons p ps ih =>
    simp only [List.cons_append]
    unfold touchExisting
    rw [if_neg (hpre p (List.mem_cons_self p ps))]
    rw [ih (fun r hr => hpre r (List.mem_cons_of_mem p hr))]

theorem registry_any_eq_true {l : List DeviceRecord} {did : JsonVal}
    (h : ∃ r ∈ l, r.device_id = did) :
    l.any (fun d => decide (d.device_id = did)) = true := by
  rw [List.any_eq_true]
  obtain ⟨r, hr, he⟩ := h
  exact ⟨r, hr, by simp [he]⟩

theorem registry_any_eq_false {l : List DeviceRecord} {did : JsonVal}
    (h : ∀ r ∈ l, r.device_id ≠ did) :
    l.any (fun d => decide (d.device_id = did)) = false := by
  rw [← Bool.not_eq_true, List.any_eq_true]
  rintro ⟨r, hr, he⟩
  exact h r hr (by simpa using he)

/-- Reduction of the ingestion handler to its commit step once every
validation has passed. -/
theorem receive_accept (parseTs : String → Option Int) (now : Int) (ip : String)
    (data : List (String × JsonVal)) (st : ServerState) (did tv hv : JsonVal) (t h : ℚ)
    (hdid : data.lookup "device_id" = some did)
    (htv : data.lookup "temperature" = some tv)
    (hhv : data.lookup "humidity" = some hv)
    (hft : pyFloat tv = .ok t) (hfh : pyFloat hv = .ok h)
    (hrt : -50 ≤ t ∧ t ≤ 100) (hrh : 0 ≤ h ∧ h ≤ 100) :
    (data.lookup "timestamp" = none →
      receive_sensor_data parseTs now ip data st = ingestCommit did t h now now ip data st) ∧
    (∀ s, data.lookup "timestamp" = some (.jstr s) →
      receive_sensor_data parseTs now ip data st =
        ingestCommit did t h ((parseTs (s.replace "Z" "+00:00")).getD now) now ip data st) := by
  constructor
  · intro hts
    unfold receive_sensor_data
    simp only [hdid, htv, hhv, hft, hfh, hts]
    rw [if_neg (not_not_intro hrt), if_neg (not_not_intro hrh)]
  · intro s hts
    unfold receive_sensor_data
    simp only [hdid, htv, hhv, hft, hfh, hts]
    rw [if_neg (not_not_intro hrt), if_neg (not_not_intro hrh)]

/-- C4 counterexample: a present but non-numeric temperature value (JSON
null) is not rejected with the claimed 400; float(None) raises TypeError,
which the except ValueError handler does not catch, so the outer handler
returns HTTP 500. -/
theorem C4_counterexample :
    (receive_sensor_data (fun _ => none) 0 "10.0.0.1"
      [("device_id", .jstr "ESP32_001"), ("temperature", .jnull), ("humidity", .jnum 50)]
      ⟨[], [], [], []⟩).1.status = 500 ∧
    ¬(receive_sensor_data (fun _ => none) 0 "10.0.0.1"
      [("device_id", .jstr "ESP32_001"), ("temperature", .jnull), ("humidity", .jnum 50)]
      ⟨[], [], [], []⟩).1.status = 400 := by decide

/-- C4 amended: missing device_id, temperature or humidity gives 400; a
temperature or humidity that is a string failing float parsing gives 400
(ValueError); one that is null, an array or an object gives 500 (the
TypeError escapes the except ValueError); a coerced value outside
[-50, 100] or [0, 100] gives 400; and on every non-201 outcome the
telemetry store and device registry are completely unchanged. -/
theorem C4_ingest_validation (parseTs : String → Option Int) (now : Int) (ip : String)
    (data : List (String × JsonVal)) (st : ServerState) :
    ((receive_sensor_data parseTs now ip data st).1.status ≠ 201 →
      (receive_sensor_data parseTs now ip data st).2 = st) ∧
    ((data.lookup "device_id" = none ∨ data.lookup "temperature" = none ∨
        data.lookup "humidity" = none) →
      (receive_sensor_data parseTs now ip data st).1.status = 400) ∧
    (∀ tv hv, data.lookup "temperature" = some tv → data.lookup "humidity" = some hv →
      data.lookup "device_id" ≠ none →
      (pyFloat tv = .error .valueError ∨
        (∃ t, pyFloat tv = .ok t ∧ pyFloat hv = .error .valueError)) →
      (receive_sensor_data parseTs now ip data st).1.status = 400) ∧
    (∀ tv hv, data.lookup "temperature" = some tv → data.lookup "humidity" = some hv →
      data.lookup "device_id" ≠ none →
      (pyFloat tv = .error .typeError ∨
        (∃ t, pyFloat tv = .ok t ∧ pyFloat hv = .error .typeError)) →
      (receive_sensor_data parseTs now ip data st).1.status = 500) ∧
    (∀ tv hv t h, data.lookup "temperature" = some tv → data.lookup "humidity" = some hv →
      data.lookup "device_id" ≠ none → pyFloat tv = .ok t → pyFloat hv = .ok h →
      (¬(-50 ≤ t ∧ t ≤ 100) ∨ ((-50 ≤ t ∧ t ≤ 100) ∧ ¬(0 ≤ h ∧ h ≤ 100))) →
      (receive_sensor_data parseTs now ip data st).1.status = 400) := by
  refine ⟨?_, ?_, ?_, ?_, ?_⟩
  · rcases hdev : data.lookup "device_id" with _ | did
    · unfold receive_sensor_data
      simp [hdev]
    · rcases htv : data.lookup "temperature" with _ | tv
      · unfold receive_sensor_data
        simp [hdev, htv]
      · rcases hhv : data.lookup "humidity" with _ | hv
        · unfold receive_sensor_data
          simp [hdev, htv, hhv]
        · rcases hft : pyFloat tv with e | t
          · rcases e with _ | _
            · unfold receive_sensor_data
              simp [hdev, htv, hhv, hft]
            · unfold receive_sensor_data
              simp [hdev, htv, hhv, hft]
          · rcases hfh : pyFloat hv with e | h
            · rcases e with _ | _
              · unfold receive_sensor_data
                simp [hdev, htv, hhv, hft, hfh]
              · unfold receive_sensor_data
                simp [hdev, htv, hhv, hft, hfh]
            · unfold receive_sensor_data
              simp only [hdev, htv, hhv, hft, hfh]
              by_cases hrt : ¬(-50 ≤ t ∧ t ≤ 100)
              · rw [if_pos hrt]
                intro _
                rfl
              · rw [if_neg hrt]
                by_cases hrh : ¬(0 ≤ h ∧ h ≤ 100)
                · rw [if_pos hrh]
                  intro _
                  rfl
                · rw [if_neg hrh]
                  rcases hts : data.lookup "timestamp" with _ | v
                  · intro hne
                    exact absurd rfl hne
                  · rcases v with _ | b | q | sv | _ | _
                    · intro _; rfl
                    · intro _; rfl
                    · intro _; rfl
                    · intro hne
                      exact absurd rfl hne
                    · intro _; rfl
                    · intro _; rfl
  · rintro (h | h | h)
    · unfold receive_sensor_data
      simp [h]
    · unfold receive_sensor_data
      cases data.lookup "device_id" with
      | none => simp
      | some did => simp [h]
    · unfold receive_sensor_data
      cases data.lookup "device_id" with
      | none => simp
      | some did =>
        cases data.lookup "temperature" with
        | none => simp
        | some tv => simp [h]
  · intro tv hv htv hhv hdev hcase
    obtain ⟨did, hdid⟩ := Option.ne_none_iff_exists'.mp hdev
    unfold receive_sensor_data
    rcases hcase with hft | ⟨t, hft, hfh⟩
    · simp [hdid, htv, hhv, hft]
    · simp [hdid, htv, hhv, hft, hfh]
  · intro tv hv htv hhv hdev hcase
    obtain ⟨did, hdid⟩ := Option.ne_none_iff_exists'.mp hdev
    unfold receive_sensor_data
    rcases hcase with hft | ⟨t, hft, hfh⟩
    · simp [hdid, htv, hhv, hft]
    · simp [hdid, htv, hhv, hft, hfh]
  · intro tv hv t h htv hhv hdev hft hfh hcase
    obtain ⟨did, hdid⟩ := Option.ne_none_iff_exists'.mp hdev
    unfold receive_sensor_data
    simp only [hdid, htv, hhv, hft, hfh]
    rcases hcase with hrt | ⟨hin, hrh⟩
    · rw [if_pos hrt]
    · rw [if_neg (not_not_intro hin), if_pos hrh]

/-- Witness for C4 (amended): temperature 150 is rejected with 400 by the
range branch. -/
theorem C4_witness :
    (receive_sensor_data (fun _ => none) 0 "10.0.0.1"
      [("device_id", .jstr "ESP32_001"), ("temperature", .jnum 150), ("humidity", .jnum 50)]
      ⟨[], [], [], []⟩).1.status = 400 :=
  (C4_ingest_validation (fun _ => none) 0 "10.0.0.1"
    [("device_id", .jstr "ESP32_001"), ("temperature", .jnum 150), ("humidity", .jnum 50)]
    ⟨[], [], [], []⟩).2.2.2.2 (.jnum 150) (.jnum 50) 150 50 rfl rfl (by decide) rfl rfl
    (Or.inl (by decide))

/-- C5 counterexample: a supplied timestamp that is a JSON number (hence
unparseable as an ISO-8601 timestamp) is not recovered: .replace on a
non-string raises AttributeError, the handler answers 500, and no reading
is stored. -/
theorem C5_counterexample :
    (receive_sensor_data (fun _ => none) 0 "10.0.0.1"
      [("device_id", .jstr "d"), ("temperature", .jnum 20), ("humidity", .jnum 50),
       ("timestamp", .jnum 1700000000)] ⟨[], [], [], []⟩).1.status = 500 ∧
    (receive_sensor_data (fun _ => none) 0 "10.0.0.1"
      [("device_id", .jstr "d"), ("temperature", .jnum 20), ("humidity", .jnum 50),
       ("timestamp", .jnum 1700000000)] ⟨[], [], [], []⟩).2.sensor_data = [] := by decide

/-- C5 amended: for a validated reading whose timestamp field is absent,
or is a string that fails ISO-8601 parsing, the reading is accepted with
201 and stored with observed_at equal to the server receipt time; only a
non-string timestamp value crashes the handler (500). -/
theorem C5_timestamp_fallback (parseTs : String → Option Int) (now : Int) (ip : String)
    (data : List (String × JsonVal)) (st : ServerState) (did tv hv : JsonVal) (t h : ℚ)
    (hdid : data.lookup "device_id" = some did)
    (htv : data.lookup "temperature" = some tv)
    (hhv : data.lookup "humidity" = some hv)
    (hft : pyFloat tv = .ok t) (hfh : pyFloat hv = .ok h)
    (hrt : -50 ≤ t ∧ t ≤ 100) (hrh : 0 ≤ h ∧ h ≤ 100)
    (hts : data.lookup "timestamp" = none ∨
      ∃ s, data.lookup "timestamp" = some (.jstr s) ∧
        parseTs (s.replace "Z" "+00:00") = none) :
    (receive_sensor_data parseTs now ip data st).1.status = 201 ∧
    (receive_sensor_data parseTs now ip data st).2.sensor_data =
      ⟨did, t, h, (data.lookup "firmware_version").getD (.jstr "unknown"), now, now⟩
        :: st.sensor_data := by
  have hr := receive_accept parseTs now ip data st did tv hv t h hdid htv hhv hft hfh hrt hrh
  rcases hts with hts | ⟨s, hts, hparse⟩
  · rw [hr.1 hts]
    exact ⟨rfl, rfl⟩
  · rw [hr.2 s hts, hparse]
    exact ⟨rfl, rfl⟩

/-- Witness for C5 (amended): an unparseable string timestamp is accepted
and the reading is stored at server time 7. -/
theorem C5_witness :
    (receive_sensor_data (fun _ => none) 7 "10.0.0.1"
      [("device_id", .jstr "ESP32_001"), ("temperature", .jnum 23), ("humidity", .jnum 41),
       ("timestamp", .jstr "not-a-date")] ⟨[], [], [], []⟩).1.status = 201 ∧
    (receive_sensor_data (fun _ => none) 7 "10.0.0.1"
      [("device_id", .jstr "ESP32_001"), ("temperature", .jnum 23), ("humidity", .jnum 41),
       ("timestamp", .jstr "not-a-date")] ⟨[], [], [], []⟩).2.sensor_data =
      [⟨.jstr "ESP32_001", 23, 41, .jstr "unknown", 7, 7⟩] :=
  C5_timestamp_fallback (fun _ => none) 7 "10.0.0.1"
    [("device_id", .jstr "ESP32_001"), ("temperature", .jnum 23), ("humidity", .jnum 41),
     ("timestamp", .jstr "not-a-date")] ⟨[], [], [], []⟩
    (.jstr "ESP32_001") (.jnum 23) (.jnum 41) 23 41 rfl rfl rfl rfl rfl
    (by decide) (by decide) (Or.inr ⟨"not-a-date", rfl, rfl⟩)

/-- C6: an accepted reading upserts the registry: an existing record for
the device keeps its hardware_version, registered_at and auto_update and
gets exactly last_seen, last_ip and current_firmware updated; an unknown
device gets a fresh record with registered_at now and auto_update true. -/
theorem C6_registry_upsert (parseTs : String → Option Int) (now : Int) (ip : String)
    (data : List (String × JsonVal)) (st : ServerState) (did tv hv : JsonVal) (t h : ℚ)
    (hdid : data.lookup "device_id" = some did)
    (htv : data.lookup "temperature" = some tv)
    (hhv : data.lookup "humidity" = some hv)
    (hft : pyFloat tv = .ok t) (hfh : pyFloat hv = .ok h)
    (hrt : -50 ≤ t ∧ t ≤ 100) (hrh : 0 ≤ h ∧ h ≤ 100)
    (hts : data.lookup "timestamp" = none ∨
      ∃ s, data.lookup "timestamp" = some (.jstr s)) :
    (receive_sensor_data parseTs now ip data st).1.status = 201 ∧
    ((∀ r ∈ st.registry, r.device_id ≠ did) →
      (receive_sensor_data parseTs now ip data st).2.registry =
        st.registry ++
          [⟨did, none, (data.lookup "firmware_version").getD (.jstr "unknown"), now, ip,
            now, true⟩]) ∧
    (∀ pre rec post, st.registry = pre ++ rec :: post →
      (∀ r ∈ pre, r.device_id ≠ did) → rec.device_id = did →
      (receive_sensor_data parseTs now ip data st).2.registry =
        pre ++
          { rec with
              last_seen := now
              last_ip := ip
              current_firmware := (data.lookup "firmware_version").getD (.jstr "unknown") }
          :: post) := by
  have hr := receive_accept parseTs now ip data st did tv hv t h hdid htv hhv hft hfh hrt hrh
  obtain ⟨ts, heq⟩ : ∃ ts, receive_sensor_data parseTs now ip data st =
      ingestCommit did t h ts now ip data st := by
    rcases hts with hts | ⟨s, hts⟩
    · exact ⟨now, hr.1 hts⟩
    · exact ⟨_, hr.2 s hts⟩
  rw [heq]
  refine ⟨rfl, ?_, ?_⟩
  · intro hnone
    unfold ingestCommit
    rw [registry_any_eq_false hnone]
    simp
  · intro pre rec post hsplit hpre hrec
    have hany : st.registry.any (fun d => decide (d.device_id = did)) = true := by
      refine registry_any_eq_true ⟨rec, ?_, hrec⟩
      rw [hsplit]
      exact List.mem_append_right _ (List.mem_cons_self _ _)
    unfold ingestCommit
    rw [hany]
    simp only [if_true]
    rw [hsplit, touchExisting_append did now ip _ pre rec post hpre hrec]

/-- Witness for C6: an existing record with auto_update false and
registered_at 3 keeps both across a touch that updates last_seen, the IP
and the firmware. -/
theorem C6_witness :
    (receive_sensor_data (fun _ => none) 50 "10.0.0.2"
      [("device_id", .jstr "ESP32_001"), ("temperature", .jnum 20), ("humidity", .jnum 40),
       ("firmware_version", .jstr "1.1.0")]
      ⟨[], [⟨.jstr "ESP32_001", none, .jstr "1.0.0", 10, "10.0.0.1", 3, false⟩], [],
        []⟩).2.registry =
      [⟨.jstr "ESP32_001", none, .jstr "1.1.0", 50, "10.0.0.2", 3, false⟩] := by
  have h := C6_registry_upsert (fun _ => none) 50 "10.0.0.2"
    [("device_id", .jstr "ESP32_001"), ("temperature", .jnum 20), ("humidity", .jnum 40),
     ("firmware_version", .jstr "1.1.0")]
    ⟨[], [⟨.jstr "ESP32_001", none, .jstr "1.0.0", 10, "10.0.0.1", 3, false⟩], [], []⟩
    (.jstr "ESP32_001") (.jnum 20) (.jnum 40) 20 40 rfl rfl rfl rfl rfl
    (by decide) (by decide) (Or.inl rfl)
  have h2 := h.2.2 [] ⟨.jstr "ESP32_001", none, .jstr "1.0.0", 10, "10.0.0.1", 3, false⟩ []
    rfl (by simp) rfl
  exact h2

/-! ### Lemmas about firmware upload -/

theorem catalog_any_eq_true {l : List FirmwareRelease} {v : String}
    (h : ∃ r ∈ l, r.version = v) :
    l.any (fun r => decide (r.version = v)) = true := by
  rw [List.any_eq_true]
  obtain ⟨r, hr, he⟩ := h
  exact ⟨r, hr, by simp [he]⟩

theorem catalog_any_eq_false {l : List FirmwareRelease} {v : String}
    (h : ∀ r ∈ l, r.version ≠ v) :
    l.any (fun r => decide (r.version = v)) = false := by
  rw [← Bool.not_eq_true, List.any_eq_true]
  rintro ⟨r, hr, he⟩
  exact h r hr (by simpa using he)

/-- Any upload attempt for a version already present in the catalog is
rejected with 400 and leaves the whole state unchanged, whatever its file
part and other fields are. -/
theorem upload_duplicate_unchanged (sf : String → String) (hashFn : List Nat → String)
    (n : Int) (file : Option (String × List Nat)) (version : Option String)
    (descr : String) (israw : Option String) (s : ServerState) (v : String)
    (hv : v ≠ "") (hveq : version = some v)
    (hin : ∃ r ∈ s.catalog, r.version = v) :
    (upload_firmware sf hashFn n file version descr israw s).1.status = 400 ∧
    (upload_firmware sf hashFn n file version descr israw s).2 = s ∧
    (∀ fn ct, file = some (fn, ct) → fn ≠ "" →
      (upload_firmware sf hashFn n file version descr israw s).1 =
        ⟨400, "Version already exists"⟩) := by
  subst hveq
  rcases file with _ | ⟨fn, ct⟩
  · exact ⟨rfl, rfl, fun fn ct hct => by simp at hct⟩
  · by_cases hfn : fn = ""
    · subst hfn
      refine ⟨rfl, rfl, ?_⟩
      intro fn' ct' hct hne
      simp at hct
      exact absurd hct.1.symm hne
    · have hany : s.catalog.any (fun r => decide (r.version = v)) = true :=
        catalog_any_eq_true hin
      simp only [upload_firmware]
      rw [if_neg hfn, if_neg hv, hany]
      exact ⟨rfl, rfl, fun fn' ct' hct hne => rfl⟩

theorem uploadMany_fixed (sf : String → String) (hashFn : List Nat → String)
    (v : String) (hv : v ≠ "") (s : ServerState)
    (hin : ∃ r ∈ s.catalog, r.version = v)
    (reqs : List UploadReq) (hreqs : ∀ q ∈ reqs, q.version = some v) :
    uploadMany sf hashFn s reqs = s := by
  induction reqs with
  | nil => rfl
  | cons q qs ih =>
    unfold uploadMany
    rw [List.foldl_cons]
    have hq := upload_duplicate_unchanged sf hashFn q.now q.file q.version q.description
      q.is_stable_raw s v hv (hreqs q (List.mem_cons_self q qs)) hin
    rw [hq.2.1]
    exact ih (fun r hr => hreqs r (List.mem_cons_of_mem q hr))

theorem storeSet_lookup (s : List (String × List Nat)) (k : String) (vv : List Nat) :
    (storeSet s k vv).lookup k = some vv := by
  induction s with
  | nil => simp [storeSet, List.lookup]
  | cons p rest ih =>
    obtain ⟨k0, v0⟩ := p
    by_cases hk : k0 = k
    · unfold storeSet
      rw [if_pos hk]
      simp only [List.lookup]
      rw [show (k == k0) = true from beq_iff_eq.mpr hk.symm]
    · unfold storeSet
      rw [if_neg hk]
      simp only [List.lookup]
      rw [show (k == k0) = false from beq_eq_false_iff_ne.mpr (Ne.symm hk)]
      exact ih

/-- C3: a first upload of a fresh version v succeeds with 201; any
further upload attempt for v against any state already holding v is
rejected with 400 (the conflict message when the file part is well
formed) and changes nothing; and after the first upload followed by any
sequence of further attempts for v, the catalog holds exactly one release
for v, carrying the original checksum, and the stored binary under v's
deterministic filename is the original content. -/
theorem C3_upload_conflict (sf : String → String) (hashFn : List Nat → String)
    (now : Int) (st0 : ServerState) (fname : String) (content : List Nat)
    (v descr : String) (israw : Option String) (reqs : List UploadReq)
    (hfname : fname ≠ "") (hv : v ≠ "")
    (hnew : ∀ r ∈ st0.catalog, r.version ≠ v)
    (hreqs : ∀ q ∈ reqs, q.version = some v) :
    (upload_firmware sf hashFn now (some (fname, content)) (some v) descr israw st0).1.status
      = 201 ∧
    (∀ (q : UploadReq) (s : ServerState), q.version = some v →
      (∃ r ∈ s.catalog, r.version = v) →
      (upload_firmware sf hashFn q.now q.file q.version q.description q.is_stable_raw
        s).1.status = 400 ∧
      (upload_firmware sf hashFn q.now q.file q.version q.description q.is_stable_raw
        s).2 = s ∧
      (∀ fn ct, q.file = some (fn, ct) → fn ≠ "" →
        (upload_firmware sf hashFn q.now q.file q.version q.description q.is_stable_raw
          s).1 = ⟨400, "Version already exists"⟩)) ∧
    (uploadMany sf hashFn
        (upload_firmware sf hashFn now (some (fname, content)) (some v) descr israw st0).2
        reqs).catalog.filter (fun r => decide (r.version = v)) =
      [⟨v, sf ("firmware_v" ++ v ++ ".bin"), descr, now,
        decide ((israw.getD "true").toLower = "true"), none, hashFn content⟩] ∧
    (uploadMany sf hashFn
        (upload_firmware sf hashFn now (some (fname, content)) (some v) descr israw st0).2
        reqs).storage.lookup (sf ("firmware_v" ++ v ++ ".bin")) = some content := by
  have hany0 : st0.catalog.any (fun r => decide (r.version = v)) = false :=
    catalog_any_eq_false hnew
  have hfirst : upload_firmware sf hashFn now (some (fname, content)) (some v) descr israw st0 =
      (⟨201, "Firmware uploaded successfully"⟩,
       { st0 with
           storage := storeSet st0.storage (sf ("firmware_v" ++ v ++ ".bin")) content
           catalog := st0.catalog ++
             [⟨v, sf ("firmware_v" ++ v ++ ".bin"), descr, now,
               decide ((israw.getD "true").toLower = "true"), none, hashFn content⟩] }) := by
    simp only [upload_firmware]
    rw [if_neg hfname, if_neg hv, hany0]
    rfl
  have hst1 : (upload_firmware sf hashFn now (some (fname, content)) (some v) descr israw
      st0).2.catalog = st0.catalog ++
        [⟨v, sf ("firmware_v" ++ v ++ ".bin"), descr, now,
          decide ((israw.getD "true").toLower = "true"), none, hashFn content⟩] := by
    rw [hfirst]
  have hfix : uploadMany sf hashFn
      (upload_firmware sf hashFn now (some (fname, content)) (some v) descr israw st0).2 reqs =
      (upload_firmware sf hashFn now (some (fname, content)) (some v) descr israw st0).2 := by
    refine uploadMany_fixed sf hashFn v hv _ ?_ reqs hreqs
    rw [hst1]
    exact ⟨_, List.mem_append_right _ (List.mem_cons_self _ _), rfl⟩
  refine ⟨by rw [hfirst], ?_, ?_, ?_⟩
  · intro q s hq hin
    exact upload_duplicate_unchanged sf hashFn q.now q.file q.version q.description
      q.is_stable_raw s v hv hq hin
  · rw [hfix, hst1, List.filter_append]
    rw [List.filter_eq_nil_iff.mpr (fun r hr => by simp [hnew r hr])]
    simp
  · rw [hfix, hfirst]
    exact storeSet_lookup st0.storage (sf ("firmware_v" ++ v ++ ".bin")) content

/-- Witness for C3: the first upload of version 1.0.0 into an empty
catalog succeeds with 201. -/
theorem C3_witness :
    (upload_firmware (fun x => x) (fun _ => "digest") 5 (some ("fw.bin", [1, 2, 3]))
      (some "1.0.0") "" none ⟨[], [], [], []⟩).1.status = 201 :=
  (C3_upload_conflict (fun x => x) (fun _ => "digest") 5 ⟨[], [], [], []⟩ "fw.bin"
    [1, 2, 3] "1.0.0" "" none [] (by decide) (by decide) (by simp) (by simp)).1

/-! ### Lemmas about the statistics aggregates -/

theorem foldl_min_mem (xs : List ℚ) (a : ℚ) : xs.foldl min a = a ∨ xs.foldl min a ∈ xs := by
  induction xs generalizing a with
  | nil => left; rfl
  | cons x xs ih =>
    rw [List.foldl_cons]
    rcases ih (min a x) with h | h
    · rcases min_choice a x with hm | hm
      · left; rw [h, hm]
      · right; rw [h, hm]; exact List.mem_cons_self _ _
    · right
      exact List.mem_cons_of_mem _ h

theorem foldl_min_le_init (xs : List ℚ) (a : ℚ) : xs.foldl min a ≤ a := by
  induction xs generalizing a with
  | nil => exact le_refl a
  | cons x xs ih =>
    rw [List.foldl_cons]
    exact (ih (min a x)).trans (min_le_left a x)

theorem foldl_min_le_mem (xs : List ℚ) (a : ℚ) : ∀ x ∈ xs, xs.foldl min a ≤ x := by
  induction xs generalizing a with
  | nil => intro x hx; simp at hx
  | cons y ys ih =>
    intro x hx
    rw [List.foldl_cons]
    rcases List.mem_cons.mp hx with hx | hx
    · subst hx
      exact (foldl_min_le_init ys (min a x)).trans (min_le_right a x)
    · exact ih (min a y) x hx

theorem foldl_max_mem (xs : List ℚ) (a : ℚ) : xs.foldl max a = a ∨ xs.foldl max a ∈ xs := by
  induction xs generalizing a with
  | nil => left; rfl
  | cons x xs ih =>
    rw [List.foldl_cons]
    rcases ih (max a x) with h | h
    · rcases max_choice a x with hm | hm
      · left; rw [h, hm]
      · right; rw [h, hm]; exact List.mem_cons_self _ _
    · right
      exact List.mem_cons_of_mem _ h

theorem foldl_max_ge_init (xs : List ℚ) (a : ℚ) : a ≤ xs.foldl max a := by
  induction xs generalizing a with
  | nil => exact le_refl a
  | cons x xs ih =>
    rw [List.foldl_cons]
    exact (le_max_left a x).trans (ih (max a x))

theorem foldl_max_ge_mem (xs : List ℚ) (a : ℚ) : ∀ x ∈ xs, x ≤ xs.foldl max a := by
  induction xs generalizing a with
  | nil => intro x hx; simp at hx
  | cons y ys ih =>
    intro x hx
    rw [List.foldl_cons]
    rcases List.mem_cons.mp hx with hx | hx
    · subst hx
      exact (le_max_right a x).trans (foldl_max_ge_init ys (max a x))
    · exact ih (max a y) x hx

theorem listMin_mem (l : List ℚ) (h : l ≠ []) : listMin l ∈ l := by
  cases l with
  | nil => exact absurd rfl h
  | cons x xs =>
    show List.foldl min x xs ∈ x :: xs
    rcases foldl_min_mem xs x with h' | h'
    · rw [h']; exact List.mem_cons_self _ _
    · exact List.mem_cons_of_mem _ h'

theorem listMin_le (l : List ℚ) : ∀ x ∈ l, listMin l ≤ x := by
  cases l with
  | nil => intro x hx; simp at hx
  | cons y ys =>
    intro x hx
    show List.foldl min y ys ≤ x
    rcases List.mem_cons.mp hx with hx | hx
    · subst hx; exact foldl_min_le_init ys x
    · exact foldl_min_le_mem ys y x hx

theorem listMax_mem (l : List ℚ) (h : l ≠ []) : listMax l ∈ l := by
  cases l with
  | nil => exact absurd rfl h
  | cons x xs =>
    show List.foldl max x xs ∈ x :: xs
    rcases foldl_max_mem xs x with h' | h'
    · rw [h']; exact List.mem_cons_self _ _
    · exact List.mem_cons_of_mem _ h'

theorem listMax_ge (l : List ℚ) : ∀ x ∈ l, x ≤ listMax l := by
  cases l with
  | nil => intro x hx; simp at hx
  | cons y ys =>
    intro x hx
    show x ≤ List.foldl max y ys
    rcases List.mem_cons.mp hx with hx | hx
    · subst hx; exact foldl_max_ge_init ys x
    · exact foldl_max_ge_mem ys y x hx

theorem foldl_add_eq (l : List ℚ) (a : ℚ) : l.foldl (· + ·) a = a + l.sum := by
  induction l generalizing a with
  | nil => simp
  | cons x xs ih =>
    rw [List.foldl_cons, List.sum_cons, ih]
    ring

theorem listSum_eq (l : List ℚ) : listSum l = l.sum := by
  unfold listSum
  rw [foldl_add_eq]
  ring

theorem get_sensor_stats_empty (st : ServerState) (now : Int) (d : String)
    (period : Option String) (hd : d ≠ "")
    (hsel : statsWindow st d (now - periodSeconds (period.getD "24h")) = []) :
    get_sensor_stats st now (some d) period = ⟨200, some ⟨⟨0, 0, 0⟩, ⟨0, 0, 0⟩, 0⟩⟩ := by
  unfold get_sensor_stats
  rw [if_neg (by simpa using hd)]
  simp only [Option.getD_some]
  rw [hsel]
  rfl

theorem get_sensor_stats_nonempty (st : ServerState) (now : Int) (d : String)
    (period : Option String) (hd : d ≠ "")
    (hsel : statsWindow st d (now - periodSeconds (period.getD "24h")) ≠ []) :
    get_sensor_stats st now (some d) period =
      ⟨200, some
        ⟨⟨listMin ((statsWindow st d (now - periodSeconds (period.getD "24h"))).map
              (fun r => r.temperature)),
          listMax ((statsWindow st d (now - periodSeconds (period.getD "24h"))).map
              (fun r => r.temperature)),
          listSum ((statsWindow st d (now - periodSeconds (period.getD "24h"))).map
              (fun r => r.temperature)) /
            ((statsWindow st d (now - periodSeconds (period.getD "24h"))).map
              (fun r => r.temperature)).length⟩,
         ⟨listMin ((statsWindow st d (now - periodSeconds (period.getD "24h"))).map
              (fun r => r.humidity)),
          listMax ((statsWindow st d (now - periodSeconds (period.getD "24h"))).map
              (fun r => r.humidity)),
          listSum ((statsWindow st d (now - periodSeconds (period.getD "24h"))).map
              (fun r => r.humidity)) /
            ((statsWindow st d (now - periodSeconds (period.getD "24h"))).map
              (fun r => r.humidity)).length⟩,
         (statsWindow st d (now - periodSeconds (period.getD "24h"))).length⟩⟩ := by
  unfold get_sensor_stats
  rw [if_neg (by simpa using hd)]
  simp only [Option.getD_some]
  rw [if_neg (by simp [List.isEmpty_iff, hsel])]

/-- C8 counterexample: a reading whose device-reported timestamp lies 10
seconds in the future is outside every window ending at the current
server time, yet the stats query counts it (data_points = 1 instead of
the zero-count empty-window response the claim requires). -/
theorem C8_counterexample :
    ((1000000 : Int) < 1000010) ∧
    ((get_sensor_stats ⟨[⟨.jstr "d", 20, 50, .jstr "1.0", 1000010, 1000010⟩], [], [], []⟩
        1000000 (some "d") (some "24h")).stats.map (fun sp => sp.data_points)) =
      some 1 := by
  constructor
  · decide
  · rfl

/-- C8 amended: with a device_id supplied, the stats query always
answers 200; when no reading of the device has timestamp at least now
minus the period (window open towards the future, not capped at now) the
stats are all zero with zero data points; otherwise data_points is the
size of that selection and min, max and average are the exact aggregates
of the selected temperatures and humidities (average times count equals
the sum). -/
theorem C8_stats (st : ServerState) (now : Int) (d : String) (period : Option String)
    (hd : d ≠ "") :
    (get_sensor_stats st now (some d) period).status = 200 ∧
    (statsWindow st d (now - periodSeconds (period.getD "24h")) = [] →
      (get_sensor_stats st now (some d) period).stats =
        some ⟨⟨0, 0, 0⟩, ⟨0, 0, 0⟩, 0⟩) ∧
    (∀ sp, (get_sensor_stats st now (some d) period).stats = some sp →
      sp.data_points =
        (statsWindow st d (now - periodSeconds (period.getD "24h"))).length ∧
      (statsWindow st d (now - periodSeconds (period.getD "24h")) ≠ [] →
        (sp.temperature.min ∈ (statsWindow st d
            (now - periodSeconds (period.getD "24h"))).map (fun r => r.temperature) ∧
         (∀ x ∈ (statsWindow st d (now - periodSeconds (period.getD "24h"))).map
            (fun r => r.temperature), sp.temperature.min ≤ x) ∧
         sp.temperature.max ∈ (statsWindow st d
            (now - periodSeconds (period.getD "24h"))).map (fun r => r.temperature) ∧
         (∀ x ∈ (statsWindow st d (now - periodSeconds (period.getD "24h"))).map
            (fun r => r.temperature), x ≤ sp.temperature.max) ∧
         sp.temperature.avg *
            ((statsWindow st d (now - periodSeconds (period.getD "24h"))).length : ℚ) =
          ((statsWindow st d (now - periodSeconds (period.getD "24h"))).map
            (fun r => r.temperature)).sum ∧
         sp.humidity.min ∈ (statsWindow st d
            (now - periodSeconds (period.getD "24h"))).map (fun r => r.humidity) ∧
         (∀ x ∈ (statsWindow st d (now - periodSeconds (period.getD "24h"))).map
            (fun r => r.humidity), sp.humidity.min ≤ x) ∧
         sp.humidity.max ∈ (statsWindow st d
            (now - periodSeconds (period.getD "24h"))).map (fun r => r.humidity) ∧
         (∀ x ∈ (statsWindow st d (now - periodSeconds (period.getD "24h"))).map
            (fun r => r.humidity), x ≤ sp.humidity.max) ∧
         sp.humidity.avg *
            ((statsWindow st d (now - periodSeconds (period.getD "24h"))).length : ℚ) =
          ((statsWindow st d (now - periodSeconds (period.getD "24h"))).map
            (fun r => r.humidity)).sum))) := by
  by_cases hsel : statsWindow st d (now - periodSeconds (period.getD "24h")) = []
  · rw [get_sensor_stats_empty st now d period hd hsel]
    refine ⟨rfl, fun _ => rfl, ?_⟩
    intro sp hsp
    simp only [Option.some_inj] at hsp
    subst hsp
    refine ⟨by rw [hsel]; rfl, ?_⟩
    intro hne
    exact absurd hsel hne
  · rw [get_sensor_stats_nonempty st now d period hd hsel]
    refine ⟨rfl, fun h => absurd h hsel, ?_⟩
    intro sp hsp
    simp only [Option.some_inj] at hsp
    subst hsp
    refine ⟨rfl, ?_⟩
    intro _
    have hlen : (statsWindow st d (now - periodSeconds (period.getD "24h"))).length ≠ 0 :=
      fun h0 => hsel (List.length_eq_zero.mp h0)
    have hcast : ((statsWindow st d
        (now - periodSeconds (period.getD "24h"))).length : ℚ) ≠ 0 :=
      Nat.cast_ne_zero.mpr hlen
    have hmapt : (statsWindow st d (now - periodSeconds (period.getD "24h"))).map
        (fun r => r.temperature) ≠ [] := by
      intro h0
      exact hsel (List.map_eq_nil_iff.mp h0)
    have hmaph : (statsWindow st d (now - periodSeconds (period.getD "24h"))).map
        (fun r => r.humidity) ≠ [] := by
      intro h0
      exact hsel (List.map_eq_nil_iff.mp h0)
    refine ⟨listMin_mem _ hmapt, listMin_le _, listMax_mem _ hmapt, listMax_ge _, ?_,
      listMin_mem _ hmaph, listMin_le _, listMax_mem _ hmaph, listMax_ge _, ?_⟩
    · show listSum ((statsWindow st d (now - periodSeconds (period.getD "24h"))).map
          (fun r => r.temperature)) /
        (((statsWindow st d (now - periodSeconds (period.getD "24h"))).map
          (fun r => r.temperature)).length : ℚ) *
        ((statsWindow st d (now - periodSeconds (period.getD "24h"))).length : ℚ) = _
      rw [listSum_eq, List.length_map]
      exact div_mul_cancel₀ _ hcast
    · show listSum ((statsWindow st d (now - periodSeconds (period.getD "24h"))).map
          (fun r => r.humidity)) /
        (((statsWindow st d (now - periodSeconds (period.getD "24h"))).map
          (fun r => r.humidity)).length : ℚ) *
        ((statsWindow st d (now - periodSeconds (period.getD "24h"))).length : ℚ) = _
      rw [listSum_eq, List.length_map]
      exact div_mul_cancel₀ _ hcast

/-- Witness for C8 (amended): an empty store answers 200 with the
all-zero stats. -/
theorem C8_witness :
    (get_sensor_stats ⟨[], [], [], []⟩ 0 (some "ESP32_001") none).status = 200 ∧
    (get_sensor_stats ⟨[], [], [], []⟩ 0 (some "ESP32_001") none).stats =
      some ⟨⟨0, 0, 0⟩, ⟨0, 0, 0⟩, 0⟩ := by
  have h := C8_stats ⟨[], [], [], []⟩ 0 "ESP32_001" none (by decide)
  exact ⟨h.1, h.2.1 rfl⟩

/-- C7: the dashboard's online decision compares the absolute difference
between the current time and the parsed last_seen timestamp against the
180 second timeout inclusively; a clock ahead on either side within 180
seconds still counts as online. -/
theorem C7_online_iff (parseTs : String → Option Int) (now t : Int) (s : String)
    (hs : s ≠ "")
    (hparse : parseTs (if s.contains 'Z' then s.replace "Z" "+00:00" else s) = some t) :
    (get_device_status parseTs now (some s) = true ↔ |now - t| ≤ 180) ∧
    (get_device_status parseTs now (some s) = true ↔ |t - now| ≤ 180) := by
  have habs : |t - now| = |now - t| := abs_sub_comm t now
  have hmain : get_device_status parseTs now (some s) = true ↔ |now - t| ≤ 180 := by
    show (if s = "" then false
      else
        match parseTs (if s.contains 'Z' then s.replace "Z" "+00:00" else s) with
        | none => false
        | some t => if 180 < |now - t| then false else true) = true ↔ |now - t| ≤ 180
    rw [if_neg hs, hparse]
    show (if 180 < |now - t| then false else true) = true ↔ |now - t| ≤ 180
    by_cases hlt : 180 < |now - t|
    · rw [if_pos hlt]
      constructor
      · intro h
        exact absurd h (by decide)
      · intro h
        omega
    · rw [if_neg hlt]
      constructor
      · intro _
        omega
      · intro _
        rfl
  exact ⟨hmain, by rw [habs]; exact hmain⟩

/-- Witness for C7: a device last seen exactly 180 seconds ago is online,
and one whose clock is 180 seconds ahead of the server is online too. -/
theorem C7_witness :
    get_device_status (fun _ => some 100) 280 (some "2024-01-01T00:01:40") = true ∧
    get_device_status (fun _ => some 460) 280 (some "2024-01-01T00:07:40") = true := by
  constructor
  · exact (C7_online_iff (fun _ => some 100) 280 100 "2024-01-01T00:01:40" (by decide)
      rfl).1.mpr (by decide)
  · exact (C7_online_iff (fun _ => some 460) 280 460 "2024-01-01T00:07:40" (by decide)
      rfl).1.mpr (by decide)
